import Mathlib

/-!
Shallow embedding of the go-gin-prometheus middleware (src/middleware.go).

The Go code is translated as follows:
* `*http.Request` becomes `Request`; its possibly-nil `URL` is `Option String`
  (we only keep `URL.Path`, the sole field the middleware reads), and its
  possibly-nil `Body` is `Option Body`, where `Body` carries the remaining
  byte content, a flag telling whether `io.ReadAll` on it succeeds, and a
  `closed` flag recording `Body.Close` calls.
* `prometheus.Labels` (a Go map built by literal then `m[k] = v` updates)
  becomes an association list built by insert-or-replace (`insertLabel`).
* The four collectors held by the middleware become a `MetricsState` that
  records every increment of the request counter (as its label map), every
  duration observation (label map plus an abstract elapsed value — wall-clock
  time itself is environmental), and every request/response size observation.
* `gin.Context` becomes `GinContext`, seen in its state after `c.Next()`
  returned: final writer status/size, the handler name, and the context
  key/value store used by `c.Get` (values modelled as strings, matching the
  `u.(string)` assertion in the source).
* The push relay's I/O is modelled by an environment (`PushEnv`) fixing the
  outcome of each external call, and an `Action` trace recording the HTTP GET,
  the POST to the gateway and the error-log calls the code performs.
* Registration against the process-wide prometheus registry becomes a list of
  already-registered fully-qualified names; `prometheus.Register` fails
  exactly on a duplicate name.
Paths on which the Go code would fault (a nil `URL` dereference in
`HandlerFunc`, `prometheus.Register(nil)` after an unknown metric type in
`NewMetric`) are modelled by `Option`/`none` results.
-/

namespace GinProm

/-- The request body: remaining content bytes, whether a read succeeds,
and whether `Close` has been called on it. -/
structure Body where
  content : List Nat
  readOk : Bool
  closed : Bool
deriving DecidableEq, Repr

/-- The parts of `*http.Request` the middleware reads. `url` is the
possibly-nil `URL` (we keep only `URL.Path`); `contentLength` is the Go
`int64` field, with `-1` meaning unknown. -/
structure Request where
  url : Option String
  method : String
  proto : String
  headers : List (String × List String)
  host : String
  contentLength : Int
  body : Option Body
deriving DecidableEq, Repr

/-- Sum of all header names' and values' lengths, as in the
`for name, values := range r.Header` loop of the source. -/
def headerSize (hs : List (String × List String)) : Nat :=
  hs.foldl (fun acc nv =>
    acc + nv.1.length + nv.2.foldl (fun a v => a + v.length) 0) 0

/-- Result of `computeApproximateRequestSize`: the returned size, the request
as it stands afterwards (its `Body` may have been replaced or closed), and the
error-log lines emitted. -/
structure SizeResult where
  size : Int
  req : Request
  logs : List String
deriving DecidableEq, Repr

/-- Embedding of `computeApproximateRequestSize` (src/middleware.go:518).
`disableBodyReading` is the `p.DisableBodyReading` field of the receiver. -/
def computeApproximateRequestSize (disableBodyReading : Bool) (r : Request) :
    SizeResult :=
  let s : Int := match r.url with | some path => (path.length : Int) | none => 0
  let s : Int := s + r.method.length + r.proto.length
      + headerSize r.headers + r.host.length
  match r.body with
  | none =>
      if r.contentLength ≠ -1 then ⟨s + r.contentLength, r, []⟩ else ⟨s, r, []⟩
  | some b =>
      if disableBodyReading then
        if r.contentLength ≠ -1 then ⟨s + r.contentLength, r, []⟩ else ⟨s, r, []⟩
      else if b.readOk then
        -- read succeeds: close the original body and replace it with a fresh
        -- readable buffer over the same bytes (io.NopCloser(bytes.NewBuffer))
        ⟨s + b.content.length,
         { r with body := some ⟨b.content, true, false⟩ }, []⟩
      else
        -- read fails: log, fall back to ContentLength, close the body
        ⟨(if r.contentLength ≠ -1 then s + r.contentLength else s),
         { r with body := some { b with closed := true } },
         ["cannot read request body for size calculation"]⟩

/-- The header/method/URL/host part of the approximate request size: what the
accumulator `s` holds just before the body handling begins. -/
def requestOverhead (r : Request) : Int :=
  (match r.url with | some path => (path.length : Int) | none => 0)
    + r.method.length + r.proto.length + headerSize r.headers + r.host.length

/-- A `prometheus.Labels` value: an association list of label name/value. -/
abbrev LabelMap := List (String × String)

def labelKeys (m : LabelMap) : List String := m.map Prod.fst

/-- `m[k] = v` on a Go map: replace the binding if the key is present,
otherwise add it. -/
def insertLabel (m : LabelMap) (k v : String) : LabelMap :=
  if k ∈ labelKeys m then
    m.map (fun kv => if kv.1 = k then (k, v) else kv)
  else m ++ [(k, v)]

/-- The `for k, v := range p.CustomLabels { m[k] = v }` loops. -/
def insertAll (m : LabelMap) : List (String × String) → LabelMap
  | [] => m
  | kv :: rest => insertAll (insertLabel m kv.1 kv.2) rest

/-- First binding of `k` in a label map. -/
def lookupLabel (k : String) (m : LabelMap) : Option String :=
  (m.find? (fun kv => kv.1 = k)).map (fun kv => kv.2)

/-- The `gin.Context`, seen after `c.Next()` has returned: the request, the
final response status and size from `c.Writer`, `c.HandlerName()`, the
key/value store behind `c.Get` (values as strings), and an abstract elapsed
value standing for the measured wall-clock duration. -/
structure GinContext where
  request : Request
  writerStatus : Int
  writerSize : Int
  handlerName : String
  keys : List (String × String)
  elapsed : Nat
deriving DecidableEq, Repr

/-- `c.Get(key)`: the value stored in the context under `key`, if any. -/
def ctxGet (c : GinContext) (k : String) : Option String :=
  (c.keys.find? (fun kv => kv.1 = k)).map (fun kv => kv.2)

/-- The middleware configuration: the fields of the `Prometheus` struct read
by `HandlerFunc` and `computeApproximateRequestSize`. -/
structure Prometheus where
  metricsPath : String
  customLabels : List (String × String)
  urlLabelFromContext : String
  reqCntURLLabelMappingFn : GinContext → String
  disableBodyReading : Bool

/-- Accumulated observations of the four standard collectors: each request
counter increment (its label map), each duration observation (label map and
elapsed value), each request-size and response-size observation. -/
structure MetricsState where
  reqCnt : List LabelMap
  reqDur : List (LabelMap × Nat)
  reqSz : List Int
  resSz : List Int
deriving DecidableEq, Repr

/-- The `url` label value: the mapping function's result, overridden by the
context value under `URLLabelFromContext` when that field is non-empty
(missing context value gives the literal "unknown"), as in
src/middleware.go:474-482. -/
def urlOf (p : Prometheus) (c : GinContext) : String :=
  let url := p.reqCntURLLabelMappingFn c
  if 0 < p.urlLabelFromContext.length then
    match ctxGet c p.urlLabelFromContext with
    | some u => u
    | none => "unknown"
  else url

/-- The five fixed label pairs of a request-counter increment, before the
custom labels are merged in. -/
def cntBase (p : Prometheus) (c : GinContext) : LabelMap :=
  [("code", toString c.writerStatus), ("method", c.request.method),
   ("handler", c.handlerName), ("host", c.request.host), ("url", urlOf p c)]

/-- The three fixed label pairs of a duration observation, before the custom
labels are merged in. -/
def durBase (p : Prometheus) (c : GinContext) : LabelMap :=
  [("code", toString c.writerStatus), ("method", c.request.method),
   ("url", urlOf p c)]

/-- Embedding of the closure returned by `HandlerFunc` (src/middleware.go:458),
acting on the metrics state. `none` models the nil-URL dereference fault.
The context is taken in its post-`c.Next()` state; the skip branch for the
metrics path leaves the state untouched. -/
def handlerFunc (p : Prometheus) (c : GinContext) (st : MetricsState) :
    Option MetricsState :=
  match c.request.url with
  | none => none
  | some path =>
    if path = p.metricsPath then some st
    else
      let szr := computeApproximateRequestSize p.disableBodyReading c.request
      let reqDurLabels := insertAll (durBase p c) p.customLabels
      let reqCntLabels := insertAll (cntBase p c) p.customLabels
      some { reqCnt := st.reqCnt ++ [reqCntLabels],
             reqDur := st.reqDur ++ [(reqDurLabels, c.elapsed)],
             reqSz := st.reqSz ++ [szr.size],
             resSz := st.resSz ++ [c.writerSize] }

/-- A sequence of requests through the middleware, threading the metrics
state; `none` as soon as one request faults. -/
def runRequests (p : Prometheus) (cs : List GinContext) (st : MetricsState) :
    Option MetricsState :=
  match cs with
  | [] => some st
  | c :: rest =>
    match handlerFunc p c st with
    | none => none
    | some st' => runRequests p rest st'

/-! ### Push-gateway relay (src/middleware.go:287-346) -/

/-- The `PrometheusPushGateway` configuration struct. -/
structure Ppg where
  pushIntervalSeconds : Nat
  pushGatewayURL : String
  metricsURL : String
  job : String
deriving DecidableEq, Repr

/-- Outcome of the relay's `http.Get` of the local metrics URL: the transport
fails, the response body read fails, or the exposition bytes are obtained. -/
inductive FetchOutcome where
  | transportError
  | readError
  | ok (body : List Nat)
deriving DecidableEq, Repr

/-- Environment of one push cycle: the fetch outcome, the hostname the
operating system reports at this moment, and whether request construction or
the POST transport fail. -/
structure PushEnv where
  fetch : FetchOutcome
  hostname : String
  newRequestFails : Bool
  sendTransportFails : Bool
deriving DecidableEq, Repr

/-- Externally visible steps a push cycle performs. -/
inductive Action where
  | httpGet (url : String)
  | logError (msg : String)
  | post (url : String) (body : List Nat)
deriving DecidableEq, Repr

/-- Embedding of `getMetrics` (src/middleware.go:287): the returned byte
slice (`none` is Go's nil slice, returned on a body-read error; a transport
error returns the empty non-nil slice) and the actions performed. -/
def getMetrics (ppg : Ppg) (env : PushEnv) : Option (List Nat) × List Action :=
  match env.fetch with
  | .transportError =>
      (some [], [.httpGet ppg.metricsURL, .logError "p.Ppg.MetricsURL failed"])
  | .readError =>
      (none, [.httpGet ppg.metricsURL, .logError "io.ReadAll failed"])
  | .ok b => (some b, [.httpGet ppg.metricsURL])

/-- Embedding of `getPushGatewayURL` (src/middleware.go:309): sets the job to
"gin" when empty (mutating the receiver), then concatenates the URL with the
hostname `h` resolved from the environment. -/
def getPushGatewayURL (ppg : Ppg) (h : String) : String × Ppg :=
  let ppg := if ppg.job = "" then { ppg with job := "gin" } else ppg
  (ppg.pushGatewayURL ++ "/metrics/job/" ++ ppg.job ++ "/instance/" ++ h, ppg)

/-- Embedding of `sendMetricsToPushGateway` (src/middleware.go:320).
`bytes.NewBuffer` of a nil slice is an empty buffer, hence `metrics.getD []`
as the POST body. On a request-construction error the code calls
`getPushGatewayURL` a second time inside the log line. A transport error of
`client.Do` is a POST attempt that fails and is logged. -/
def sendMetricsToPushGateway (ppg : Ppg) (env : PushEnv)
    (metrics : Option (List Nat)) : Ppg × List Action :=
  let url := (getPushGatewayURL ppg env.hostname).1
  let ppg1 := (getPushGatewayURL ppg env.hostname).2
  if env.newRequestFails then
    let url2 := (getPushGatewayURL ppg1 env.hostname).1
    let ppg2 := (getPushGatewayURL ppg1 env.hostname).2
    (ppg2, [.logError ("Error creating push gateway request for URL: " ++ url2)])
  else if env.sendTransportFails then
    (ppg1, [.post url (metrics.getD []), .logError "Error sending to push gateway"])
  else
    (ppg1, [.post url (metrics.getD [])])

/-- One tick of the relay loop body (src/middleware.go:343):
`p.sendMetricsToPushGateway(p.getMetrics())`. -/
def pushCycle (ppg : Ppg) (env : PushEnv) : Ppg × List Action :=
  let fetched := getMetrics ppg env
  let sent := sendMetricsToPushGateway ppg env fetched.1
  (sent.1, fetched.2 ++ sent.2)

/-- The ticker loop of `startPushTicker` run for a finite list of ticks, each
with its own environment; yields the per-tick action traces. -/
def runTicker (ppg : Ppg) (envs : List PushEnv) : Ppg × List (List Action) :=
  match envs with
  | [] => (ppg, [])
  | e :: rest =>
    let c := pushCycle ppg e
    let r := runTicker c.1 rest
    (r.1, c.2 :: r.2)

/-- The POST requests among a trace of actions: (url, body) pairs. -/
def postsOf (as : List Action) : List (String × List Nat) :=
  as.filterMap (fun a => match a with
    | .post u b => some (u, b)
    | _ => none)

/-- The byte slice `getMetrics` hands to the send step, as a plain list. -/
def fetchedBytes : FetchOutcome → List Nat
  | .transportError => []
  | .readError => []
  | .ok b => b

/-- The job name actually used in push URLs: the fallback "gin" when the
configured job is empty. -/
def effJob (j : String) : String := if j = "" then "gin" else j

/-- The push URL pattern `{base}/metrics/job/{job}/instance/{hostname}`. -/
def pushURL (base job host : String) : String :=
  base ++ "/metrics/job/" ++ job ++ "/instance/" ++ host

/-! ### Metric definitions and registration (src/middleware.go:348-443) -/

/-- The `Metric` definition struct (collector field omitted; it is an output
of registration, not an input). -/
structure Metric where
  id : String
  name : String
  description : String
  type : String
  args : List String
deriving DecidableEq, Repr

/-- A live prometheus collector as far as identity is concerned: its kind and
the options `NewMetric` passes to the constructor. -/
structure Collector where
  kind : String
  subsystem : String
  name : String
  help : String
  args : List String
deriving DecidableEq, Repr

/-- Embedding of `NewMetric` (src/middleware.go:349): the `switch` on the
type tag; an unknown tag leaves the collector nil (`none`). -/
def NewMetric (m : Metric) (subsystem : String) : Option Collector :=
  match m.type with
  | "counter_vec" => some ⟨"counter_vec", subsystem, m.name, m.description, m.args⟩
  | "counter" => some ⟨"counter", subsystem, m.name, m.description, []⟩
  | "gauge_vec" => some ⟨"gauge_vec", subsystem, m.name, m.description, m.args⟩
  | "gauge" => some ⟨"gauge", subsystem, m.name, m.description, []⟩
  | "histogram_vec" => some ⟨"histogram_vec", subsystem, m.name, m.description, m.args⟩
  | "histogram" => some ⟨"histogram", subsystem, m.name, m.description, []⟩
  | "summary_vec" => some ⟨"summary_vec", subsystem, m.name, m.description, m.args⟩
  | "summary" => some ⟨"summary", subsystem, m.name, m.description, []⟩
  | _ => none

/-- The fully-qualified metric name under which the process-wide registry
files a collector (`prometheus.BuildFQName` with empty namespace). -/
def Collector.fqName (c : Collector) : String :=
  if c.subsystem = "" then c.name else c.subsystem ++ "_" ++ c.name

/-- The fully-qualified name a definition will get under a subsystem. -/
def metricFqName (subsystem : String) (m : Metric) : String :=
  if subsystem = "" then m.name else subsystem ++ "_" ++ m.name

/-- One attempted `prometheus.Register` call: the fully-qualified name it was
made for and whether it succeeded. -/
structure RegAttempt where
  name : String
  ok : Bool
deriving DecidableEq, Repr

/-- Result of `registerMetrics`: the registry contents afterwards, the
register attempts in order, and the error-log lines emitted. -/
structure RegResult where
  registry : List String
  attempts : List RegAttempt
  logs : List String
deriving DecidableEq, Repr

/-- Embedding of `registerMetrics` (src/middleware.go:424): for every
definition in the list, construct the collector and attempt to register it;
a duplicate name fails, is logged, and the loop continues. `none` models the
fault of registering the nil collector an unknown type tag produces. -/
def registerMetrics (ml : List Metric) (subsystem : String)
    (reg : List String) : Option RegResult :=
  match ml with
  | [] => some ⟨reg, [], []⟩
  | m :: rest =>
    match NewMetric m subsystem with
    | none => none
    | some col =>
      let dup : Bool := decide (col.fqName ∈ reg)
      let reg' := if dup then reg else reg ++ [col.fqName]
      let logs := if dup then
          [m.name ++ " could not be registered in Prometheus"] else []
      match registerMetrics rest subsystem reg' with
      | none => none
      | some r => some ⟨r.registry, ⟨col.fqName, !dup⟩ :: r.attempts, logs ++ r.logs⟩

/-! ### Theorems about the size computation and the skip branch -/

/-- C2: a request whose path equals the configured metrics-exposition path is
passed through without any instrumentation: the counter, duration,
request-size and response-size collectors are all left exactly as they were. -/
theorem metricsPath_request_skips_instrumentation (p : Prometheus)
    (c : GinContext) (st : MetricsState)
    (h : c.request.url = some p.metricsPath) :
    handlerFunc p c st = some st := by
  unfold handlerFunc
  rw [h]
  simp

/-- Witness for C2: a concrete request to "/metrics" leaves the empty metrics
state untouched. -/
theorem metricsPath_request_skips_instrumentation_witness :
    handlerFunc
      ⟨"/metrics", [], "", (fun c => c.request.url.getD ""), false⟩
      ⟨⟨some "/metrics", "GET", "HTTP/1.1", [], "example.com", 0, none⟩,
        200, 7, "h", [], 3⟩
      ⟨[], [], [], []⟩
      = some ⟨[], [], [], []⟩ :=
  metricsPath_request_skips_instrumentation _ _ _ rfl

/-- C3: the approximate request size is the header/method/URL/host overhead
plus the declared content-length when body reading is disabled or the body is
absent (and the content-length is not the sentinel -1; a sentinel adds
nothing), or plus the consumed body length when body reading is enabled and
the read succeeds; with body reading disabled, a request carrying a 4-byte
body and a nonempty method yields a size strictly greater than 4 and hence
never exactly the body length alone. -/
theorem requestSize_formula (d : Bool) (r : Request) :
    ((r.body = none ∨ d = true) →
      (computeApproximateRequestSize d r).size
        = requestOverhead r
          + (if r.contentLength ≠ -1 then r.contentLength else 0))
  ∧ (∀ b, r.body = some b → d = false → b.readOk = true →
      (computeApproximateRequestSize d r).size
        = requestOverhead r + b.content.length)
  ∧ (∀ b, r.body = some b → b.content.length = 4 → d = true →
      r.contentLength = 4 → 0 < r.method.length →
      4 < (computeApproximateRequestSize d r).size
        ∧ (computeApproximateRequestSize d r).size ≠ 4) := by
  have hmain : (r.body = none ∨ d = true) →
      (computeApproximateRequestSize d r).size
        = requestOverhead r
          + (if r.contentLength ≠ -1 then r.contentLength else 0) := by
    rintro (hb | hd)
    · simp only [computeApproximateRequestSize, requestOverhead, hb]
      split_ifs <;> simp
    · subst hd
      rcases hb : r.body with _ | b <;>
        simp only [computeApproximateRequestSize, requestOverhead, hb] <;>
        split_ifs <;> simp
  refine ⟨hmain, ?_, ?_⟩
  · intro b hb hd hok
    subst hd
    simp [computeApproximateRequestSize, requestOverhead, hb, hok]
  · intro b hb hlen hd hcl hm
    subst hd
    have hsz := hmain (Or.inr rfl)
    rw [hcl] at hsz
    norm_num at hsz
    have hov : (r.method.length : Int) ≤ requestOverhead r := by
      unfold requestOverhead
      rcases r.url with _ | path <;> simp <;> omega
    constructor <;> rw [hsz] <;> omega

/-- Witness for C3: concrete requests exercising the content-length branch,
the consumed-body branch, and the strictly-greater-than-4 property for a
4-byte body with body reading disabled. -/
theorem requestSize_formula_witness :
    ((computeApproximateRequestSize true
        ⟨some "/x", "GET", "HTTP/1.1", [("A", ["b"])], "example.com", 4,
          some ⟨[9, 9, 9, 9], true, false⟩⟩).size
      = requestOverhead
          ⟨some "/x", "GET", "HTTP/1.1", [("A", ["b"])], "example.com", 4,
            some ⟨[9, 9, 9, 9], true, false⟩⟩ + 4)
  ∧ ((computeApproximateRequestSize false
        ⟨some "/x", "GET", "HTTP/1.1", [], "example.com", -1,
          some ⟨[1, 2, 3], true, false⟩⟩).size
      = requestOverhead
          ⟨some "/x", "GET", "HTTP/1.1", [], "example.com", -1,
            some ⟨[1, 2, 3], true, false⟩⟩ + 3)
  ∧ 4 < (computeApproximateRequestSize true
        ⟨some "/x", "GET", "HTTP/1.1", [("A", ["b"])], "example.com", 4,
          some ⟨[9, 9, 9, 9], true, false⟩⟩).size :=
  ⟨by
      have h := (requestSize_formula true
        ⟨some "/x", "GET", "HTTP/1.1", [("A", ["b"])], "example.com", 4,
          some ⟨[9, 9, 9, 9], true, false⟩⟩).1 (Or.inr rfl)
      simpa using h,
   (requestSize_formula false
      ⟨some "/x", "GET", "HTTP/1.1", [], "example.com", -1,
        some ⟨[1, 2, 3], true, false⟩⟩).2.1 ⟨[1, 2, 3], true, false⟩ rfl rfl rfl,
   ((requestSize_formula true
      ⟨some "/x", "GET", "HTTP/1.1", [("A", ["b"])], "example.com", 4,
        some ⟨[9, 9, 9, 9], true, false⟩⟩).2.2 ⟨[9, 9, 9, 9], true, false⟩
      rfl rfl rfl rfl (by decide)).1⟩

/-- C4: when the body is consumed for size measurement (body reading enabled,
body present, read succeeds), the request afterwards carries a fresh readable
body holding exactly the same bytes, and no other field of the request is
modified. -/
theorem consumedBody_restored (d : Bool) (r : Request) (b : Body)
    (hb : r.body = some b) (hok : b.readOk = true) (hd : d = false) :
    (computeApproximateRequestSize d r).req
      = { r with body := some ⟨b.content, true, false⟩ } := by
  subst hd
  simp [computeApproximateRequestSize, hb, hok]

/-- Witness for C4: a concrete request with a 3-byte body comes back with a
fresh unconsumed body holding the same 3 bytes and every other field intact. -/
theorem consumedBody_restored_witness :
    (computeApproximateRequestSize false
      ⟨some "/x", "GET", "HTTP/1.1", [], "example.com", 3,
        some ⟨[1, 2, 3], true, true⟩⟩).req
    = ⟨some "/x", "GET", "HTTP/1.1", [], "example.com", 3,
        some ⟨[1, 2, 3], true, false⟩⟩ :=
  consumedBody_restored false _ ⟨[1, 2, 3], true, true⟩ rfl rfl rfl

/-- C6: when reading the body fails, the failure is logged, the size falls
back to the overhead plus the declared content-length (when it is not -1),
and the computation still returns a value: it never aborts the request. -/
theorem bodyReadFailure_fallback (r : Request) (b : Body)
    (hb : r.body = some b) (hfail : b.readOk = false) :
    (computeApproximateRequestSize false r).size
      = requestOverhead r
        + (if r.contentLength ≠ -1 then r.contentLength else 0)
  ∧ (computeApproximateRequestSize false r).logs
      = ["cannot read request body for size calculation"] := by
  simp only [computeApproximateRequestSize, requestOverhead, hb, hfail]
  split_ifs <;> simp_all

/-- Witness for C6: a concrete request whose body read fails records overhead
plus the declared content-length 10 and logs the failure. -/
theorem bodyReadFailure_fallback_witness :
    (computeApproximateRequestSize false
      ⟨some "/x", "GET", "HTTP/1.1", [], "example.com", 10,
        some ⟨[1, 2], false, false⟩⟩).size
      = requestOverhead
          ⟨some "/x", "GET", "HTTP/1.1", [], "example.com", 10,
            some ⟨[1, 2], false, false⟩⟩
        + (if (10 : Int) ≠ -1 then (10 : Int) else 0)
  ∧ (computeApproximateRequestSize false
      ⟨some "/x", "GET", "HTTP/1.1", [], "example.com", 10,
        some ⟨[1, 2], false, false⟩⟩).logs
      = ["cannot read request body for size calculation"] :=
  bodyReadFailure_fallback _ ⟨[1, 2], false, false⟩ rfl rfl

/-- C10: with body reading disabled, or with no body present, the size
computation leaves the request — in particular its body — exactly as it was,
and reads nothing (no log entry is emitted either). -/
theorem disabledOrAbsentBody_untouched (d : Bool) (r : Request)
    (h : d = true ∨ r.body = none) :
    (computeApproximateRequestSize d r).req = r
  ∧ (computeApproximateRequestSize d r).logs = [] := by
  rcases h with hd | hb
  · subst hd
    rcases hb : r.body with _ | b <;>
      simp only [computeApproximateRequestSize, hb] <;> split_ifs <;> simp
  · simp only [computeApproximateRequestSize, hb]
    split_ifs <;> simp

/-- Witness for C10: a concrete request with a present but disabled body
comes back with the identical unconsumed body object. -/
theorem disabledOrAbsentBody_untouched_witness :
    (computeApproximateRequestSize true
      ⟨some "/x", "POST", "HTTP/1.1", [], "example.com", 4,
        some ⟨[1, 2, 3, 4], true, false⟩⟩).req
      = ⟨some "/x", "POST", "HTTP/1.1", [], "example.com", 4,
          some ⟨[1, 2, 3, 4], true, false⟩⟩
  ∧ (computeApproximateRequestSize true
      ⟨some "/x", "POST", "HTTP/1.1", [], "example.com", 4,
        some ⟨[1, 2, 3, 4], true, false⟩⟩).logs = [] :=
  disabledOrAbsentBody_untouched true _ (Or.inl rfl)

/-! ### Theorems about the push relay -/

/-- Helper: one push cycle mutates the configuration only by settling the job
name to its effective value. -/
theorem pushCycle_ppg (ppg : Ppg) (env : PushEnv) :
    (pushCycle ppg env).1 = { ppg with job := effJob ppg.job } := by
  rcases env with ⟨f, h, nr, st⟩
  rcases f <;>
    simp only [pushCycle, getMetrics, sendMetricsToPushGateway,
      getPushGatewayURL, effJob] <;>
    rcases nr <;> rcases st <;> split_ifs <;> simp_all

/-- Helper: a push cycle whose request construction succeeds performs exactly
one POST: to the pattern URL built from the base, the effective job and this
cycle's hostname, with the fetched bytes as the body. -/
theorem pushCycle_posts (ppg : Ppg) (env : PushEnv)
    (hnr : env.newRequestFails = false) :
    postsOf (pushCycle ppg env).2
      = [(pushURL ppg.pushGatewayURL (effJob ppg.job) env.hostname,
          fetchedBytes env.fetch)] := by
  rcases env with ⟨f, h, nr, st⟩
  simp only at hnr
  subst hnr
  rcases f <;>
    simp only [pushCycle, getMetrics, sendMetricsToPushGateway,
      getPushGatewayURL, effJob, pushURL, fetchedBytes] <;>
    rcases st <;> split_ifs <;> simp_all [postsOf, Option.getD]

/-- Helper: the effective job name is already settled. -/
theorem effJob_idem (j : String) : effJob (effJob j) = effJob j := by
  unfold effJob
  split_ifs <;> simp_all

/-- C5 counterexample: a push cycle whose fetch fails with a transport error
still performs a POST to the gateway — with an empty body — because
`startPushTicker` passes `getMetrics`'s empty result straight to
`sendMetricsToPushGateway`; the claim that no POST occurs for that cycle is
false. -/
theorem pushCycle_transportError_posts_anyway :
    (pushCycle ⟨5, "http://pg", "http://local/metrics", ""⟩
        ⟨.transportError, "h1", false, false⟩).2
      = [.httpGet "http://local/metrics",
         .logError "p.Ppg.MetricsURL failed",
         .post "http://pg/metrics/job/gin/instance/h1" []]
  ∧ postsOf (pushCycle ⟨5, "http://pg", "http://local/metrics", ""⟩
        ⟨.transportError, "h1", false, false⟩).2 ≠ [] := by
  constructor
  · rfl
  · decide

/-- C5 amended: when the relay's fetch fails with a transport error, the
fetch returns the empty byte slice and logs the error, the cycle does not
abort — the relay still POSTs the (empty) body to the gateway — and the
ticker then proceeds to the next tick. -/
theorem pushCycle_transportError_sends_empty (ppg : Ppg) (env : PushEnv)
    (rest : List PushEnv) (hf : env.fetch = .transportError)
    (hnr : env.newRequestFails = false)
    (hst : env.sendTransportFails = false) :
    (getMetrics ppg env).1 = some []
  ∧ (pushCycle ppg env).2
      = [.httpGet ppg.metricsURL, .logError "p.Ppg.MetricsURL failed",
         .post (pushURL ppg.pushGatewayURL (effJob ppg.job) env.hostname) []]
  ∧ (runTicker ppg (env :: rest)).2
      = (pushCycle ppg env).2 :: (runTicker (pushCycle ppg env).1 rest).2 := by
  refine ⟨?_, ?_, ?_⟩
  · simp [getMetrics, hf]
  · rcases env with ⟨f, h, nr, st⟩
    simp only at hf hnr hst
    subst hf; subst hnr; subst hst
    simp only [pushCycle, getMetrics, sendMetricsToPushGateway,
      getPushGatewayURL, effJob, pushURL]
    split_ifs <;> simp_all
  · simp [runTicker]

/-- Witness for C5's amended theorem at a concrete configuration and
environment. -/
theorem pushCycle_transportError_sends_empty_witness :
    (getMetrics ⟨5, "http://pg", "http://local/metrics", "j"⟩
        ⟨.transportError, "h1", false, false⟩).1 = some []
  ∧ (pushCycle ⟨5, "http://pg", "http://local/metrics", "j"⟩
        ⟨.transportError, "h1", false, false⟩).2
      = [.httpGet "http://local/metrics",
         .logError "p.Ppg.MetricsURL failed",
         .post (pushURL "http://pg" (effJob "j") "h1") []]
  ∧ (runTicker ⟨5, "http://pg", "http://local/metrics", "j"⟩
        [⟨.transportError, "h1", false, false⟩,
         ⟨.ok [7], "h2", false, false⟩]).2
      = (pushCycle ⟨5, "http://pg", "http://local/metrics", "j"⟩
          ⟨.transportError, "h1", false, false⟩).2
        :: (runTicker (pushCycle ⟨5, "http://pg", "http://local/metrics", "j"⟩
              ⟨.transportError, "h1", false, false⟩).1
            [⟨.ok [7], "h2", false, false⟩]).2 :=
  pushCycle_transportError_sends_empty _ _ _ rfl rfl rfl

/-- C8: over any run of the ticker in which request construction succeeds,
every cycle sends exactly one POST, whose URL is the configured base
concatenated with "/metrics/job/", the job name (settled to the fallback
"gin" when unset), "/instance/" and the hostname resolved from the
environment at that very tick, with the fetched bytes as the body. -/
theorem push_url_shape_and_fresh_hostname (ppg : Ppg) (envs : List PushEnv)
    (h : ∀ e ∈ envs, e.newRequestFails = false) :
    ((runTicker ppg envs).2.map postsOf)
      = envs.map (fun e =>
          [(pushURL ppg.pushGatewayURL (effJob ppg.job) e.hostname,
            fetchedBytes e.fetch)]) := by
  induction envs generalizing ppg with
  | nil => simp [runTicker]
  | cons e rest ih =>
    simp only [runTicker, List.map_cons, List.map]
    rw [pushCycle_posts ppg e (h e (List.mem_cons_self e rest))]
    rw [pushCycle_ppg]
    rw [ih { ppg with job := effJob ppg.job }
      (fun x hx => h x (List.mem_cons_of_mem e hx))]
    simp [effJob_idem]

/-- Witness for C8: two concrete ticks with different hostnames produce two
POSTs, each to the URL holding that tick's own hostname, with the fallback
job "gin" substituted for the unset job name. -/
theorem push_url_shape_and_fresh_hostname_witness :
    ((runTicker ⟨5, "http://pg", "http://local/metrics", ""⟩
        [⟨.ok [1, 2], "hostA", false, false⟩,
         ⟨.transportError, "hostB", false, false⟩]).2.map postsOf)
      = [[(pushURL "http://pg" (effJob "") "hostA", fetchedBytes (.ok [1, 2]))],
         [(pushURL "http://pg" (effJob "") "hostB",
           fetchedBytes .transportError)]] :=
  push_url_shape_and_fresh_hostname _ _ (by decide)

/-! ### Theorems about metric registration -/

/-- Helper: the collector `NewMetric` builds is registered under the
fully-qualified name of its definition. -/
theorem NewMetric_fqName (m : Metric) (s : String) (c : Collector)
    (h : NewMetric m s = some c) : c.fqName = metricFqName s m := by
  unfold NewMetric at h
  split at h
  all_goals first
    | exact Option.noConfusion h
    | (rw [Option.some.injEq] at h; subst h; rfl)

/-- C7: registration iterates over the entire definition list even when a
registration fails on a duplicate name: every definition yields a register
attempt, in order, and each failed attempt is matched by exactly one log
line, so construction never aborts early. -/
theorem registerMetrics_continues_after_failure (ml : List Metric)
    (s : String) (reg : List String)
    (h : ∀ m ∈ ml, (NewMetric m s).isSome = true) :
    ∃ r : RegResult, registerMetrics ml s reg = some r
      ∧ r.attempts.map RegAttempt.name = ml.map (metricFqName s)
      ∧ r.attempts.length = ml.length
      ∧ r.logs.length
          = (r.attempts.filter (fun a => a.ok = false)).length := by
  induction ml generalizing reg with
  | nil => exact ⟨⟨reg, [], []⟩, rfl, rfl, rfl, rfl⟩
  | cons m rest ih =>
    obtain ⟨c, hc⟩ := Option.isSome_iff_exists.mp
      (h m (List.mem_cons_self m rest))
    obtain ⟨r, hr, hnames, hlen, hlogs⟩ :=
      ih (if decide (c.fqName ∈ reg) = true then reg else reg ++ [c.fqName])
        (fun x hx => h x (List.mem_cons_of_mem m hx))
    refine ⟨⟨r.registry,
        ⟨c.fqName, !decide (c.fqName ∈ reg)⟩ :: r.attempts,
        (if decide (c.fqName ∈ reg) = true then
          [m.name ++ " could not be registered in Prometheus"] else [])
          ++ r.logs⟩, ?_, ?_, ?_, ?_⟩
    · unfold registerMetrics
      rw [hc]
      simp only
      rw [hr]
    · simp [hnames, NewMetric_fqName m s c hc]
    · simp [hlen]
    · by_cases hdup : c.fqName ∈ reg <;> simp [hdup, hlogs]

/-- Witness for C7: a concrete list whose middle definition collides with the
first still produces three attempts in order, the collision logged and the
last definition registered. -/
theorem registerMetrics_continues_after_failure_witness :
    ∃ r : RegResult,
      registerMetrics
        [⟨"a", "n1", "d1", "counter", []⟩,
         ⟨"b", "n1", "d2", "counter", []⟩,
         ⟨"c", "n2", "d3", "summary", []⟩] "gin" [] = some r
      ∧ r.attempts.map RegAttempt.name
          = [⟨"a", "n1", "d1", "counter", []⟩,
             ⟨"b", "n1", "d2", "counter", []⟩,
             ⟨"c", "n2", "d3", "summary", []⟩].map (metricFqName "gin")
      ∧ r.attempts.length
          = ([⟨"a", "n1", "d1", "counter", []⟩,
              ⟨"b", "n1", "d2", "counter", []⟩,
              ⟨"c", "n2", "d3", "summary", []⟩] : List Metric).length
      ∧ r.logs.length
          = (r.attempts.filter (fun a => a.ok = false)).length :=
  registerMetrics_continues_after_failure _ "gin" [] (by decide)

/-! ### Theorems about the instrumentation records -/

/-- Helper: merging key/value pairs whose keys are fresh and mutually
distinct into a label map just appends them. -/
theorem insertAll_of_disjoint (m : LabelMap) (kvs : List (String × String))
    (hd : ∀ k ∈ labelKeys kvs, k ∉ labelKeys m)
    (hn : (labelKeys kvs).Nodup) :
    insertAll m kvs = m ++ kvs := by
  induction kvs generalizing m with
  | nil => simp [insertAll]
  | cons kv rest ih =>
    simp only [labelKeys, List.map_cons, List.nodup_cons] at hn
    obtain ⟨hnotin, hn'⟩ := hn
    have hk : kv.1 ∉ labelKeys m :=
      hd kv.1 (by simp [labelKeys])
    have step : insertLabel m kv.1 kv.2 = m ++ [kv] := by
      unfold insertLabel
      rw [if_neg hk]
    have hd' : ∀ k ∈ labelKeys rest, k ∉ labelKeys (m ++ [kv]) := by
      intro k hkr hmem
      have h1 : k ∉ labelKeys m :=
        hd k (by simp [labelKeys] at hkr ⊢; exact Or.inr hkr)
      have h3 : k ≠ kv.1 := fun he => hnotin (he ▸ hkr)
      simp [labelKeys] at hmem
      rcases hmem with hA | hB
      · exact h1 (by simp [labelKeys]; exact hA)
      · exact h3 hB
    calc insertAll m (kv :: rest)
        = insertAll (m ++ [kv]) rest := by rw [insertAll, step]
      _ = (m ++ [kv]) ++ rest := ih (m ++ [kv]) hd' hn'
      _ = m ++ kv :: rest := by simp

/-- Helper: on a non-exposition request the middleware appends exactly one
record to each collector: the counter increment with the five fixed labels
followed by the custom pairs, the duration observation with its three fixed
labels and the custom pairs, the computed request size, and the response
size. -/
theorem handlerFunc_record (p : Prometheus) (c : GinContext)
    (st : MetricsState) (path : String)
    (hurl : c.request.url = some path) (hne : path ≠ p.metricsPath)
    (hdisj : ∀ k ∈ labelKeys p.customLabels,
      k ∉ (["code", "method", "handler", "host", "url"] : List String))
    (hnd : (labelKeys p.customLabels).Nodup) :
    handlerFunc p c st = some
      { reqCnt := st.reqCnt ++ [cntBase p c ++ p.customLabels],
        reqDur := st.reqDur ++ [(durBase p c ++ p.customLabels, c.elapsed)],
        reqSz := st.reqSz ++
          [(computeApproximateRequestSize p.disableBodyReading c.request).size],
        resSz := st.resSz ++ [c.writerSize] } := by
  have hcnt : insertAll (cntBase p c) p.customLabels
      = cntBase p c ++ p.customLabels := by
    refine insertAll_of_disjoint _ _ ?_ hnd
    intro k hk
    have h := hdisj k hk
    simp [cntBase, labelKeys] at h ⊢
    tauto
  have hdur : insertAll (durBase p c) p.customLabels
      = durBase p c ++ p.customLabels := by
    refine insertAll_of_disjoint _ _ ?_ hnd
    intro k hk
    have h := hdisj k hk
    simp [durBase, labelKeys] at h ⊢
    tauto
  unfold handlerFunc
  simp only [hurl]
  rw [if_neg hne]
  simp only [hcnt, hdur]

/-- C1: a sequence of N requests to non-exposition paths increments the
request counter exactly once per request — its total across all label
combinations grows by N — and every increment carries exactly the labels
code, method, handler, host, url followed by every configured custom
key-value pair, while every duration observation carries code, method, url
followed by the same custom pairs (custom keys taken distinct from each
other and from the fixed label names, as a usable configuration requires). -/
theorem requestCounter_once_per_request (p : Prometheus)
    (cs : List GinContext) (st : MetricsState)
    (hpath : ∀ c ∈ cs, c.request.url ≠ none
      ∧ c.request.url ≠ some p.metricsPath)
    (hdisj : ∀ k ∈ labelKeys p.customLabels,
      k ∉ (["code", "method", "handler", "host", "url"] : List String))
    (hnd : (labelKeys p.customLabels).Nodup) :
    ∃ st', runRequests p cs st = some st'
      ∧ st'.reqCnt
          = st.reqCnt ++ cs.map (fun c => cntBase p c ++ p.customLabels)
      ∧ st'.reqCnt.length = st.reqCnt.length + cs.length
      ∧ st'.reqDur
          = st.reqDur
            ++ cs.map (fun c => (durBase p c ++ p.customLabels, c.elapsed)) := by
  induction cs generalizing st with
  | nil => exact ⟨st, rfl, by simp, by simp, by simp⟩
  | cons c rest ih =>
    obtain ⟨hnn, hnm⟩ := hpath c (List.mem_cons_self c rest)
    rcases hu : c.request.url with _ | u
    · exact absurd hu hnn
    have hne : u ≠ p.metricsPath := fun he => hnm (by rw [hu, he])
    have hstep := handlerFunc_record p c st u hu hne hdisj hnd
    obtain ⟨st', hrun, h1, h2, h3⟩ :=
      ih { reqCnt := st.reqCnt ++ [cntBase p c ++ p.customLabels],
           reqDur := st.reqDur ++ [(durBase p c ++ p.customLabels, c.elapsed)],
           reqSz := st.reqSz ++ [(computeApproximateRequestSize
             p.disableBodyReading c.request).size],
           resSz := st.resSz ++ [c.writerSize] }
        (fun x hx => hpath x (List.mem_cons_of_mem c hx))
    refine ⟨st', ?_, ?_, ?_, ?_⟩
    · show runRequests p (c :: rest) st = some st'
      unfold runRequests
      rw [hstep]
      exact hrun
    · rw [h1]; simp
    · rw [h2]; simp; omega
    · rw [h3]; simp

/-- Witness for C1: two concrete requests with a custom label produce two
counter increments, each carrying the five fixed labels followed by the
custom pair, and two duration observations likewise. -/
theorem requestCounter_once_per_request_witness :
    ∃ st', runRequests
      ⟨"/metrics", [("custom_label", "test_value")], "",
        (fun c => c.request.url.getD ""), false⟩
      [⟨⟨some "/a", "GET", "HTTP/1.1", [], "example.com", 0, none⟩,
          200, 5, "hA", [], 1⟩,
       ⟨⟨some "/b", "POST", "HTTP/1.1", [], "example.com", 0, none⟩,
          404, 6, "hB", [], 2⟩]
      ⟨[], [], [], []⟩ = some st'
      ∧ st'.reqCnt
          = [] ++ [⟨⟨some "/a", "GET", "HTTP/1.1", [], "example.com", 0, none⟩,
              200, 5, "hA", [], 1⟩,
             ⟨⟨some "/b", "POST", "HTTP/1.1", [], "example.com", 0, none⟩,
              404, 6, "hB", [], 2⟩].map
              (fun c => cntBase
                ⟨"/metrics", [("custom_label", "test_value")], "",
                  (fun c => c.request.url.getD ""), false⟩ c
                ++ [("custom_label", "test_value")])
      ∧ st'.reqCnt.length = ([] : List LabelMap).length + 2
      ∧ st'.reqDur
          = [] ++ [⟨⟨some "/a", "GET", "HTTP/1.1", [], "example.com", 0, none⟩,
              200, 5, "hA", [], 1⟩,
             ⟨⟨some "/b", "POST", "HTTP/1.1", [], "example.com", 0, none⟩,
              404, 6, "hB", [], 2⟩].map
              (fun c => (durBase
                ⟨"/metrics", [("custom_label", "test_value")], "",
                  (fun c => c.request.url.getD ""), false⟩ c
                ++ [("custom_label", "test_value")], c.elapsed)) :=
  requestCounter_once_per_request _ _ _ (by decide) (by decide) (by decide)

/-- C9: when `URLLabelFromContext` is set non-empty, the url label recorded
with the counter increment is the context value stored under that key — the
literal "unknown" when absent — and this overrides the URL mapping function
entirely: replacing the mapping function does not change the label. -/
theorem urlLabel_from_context (p : Prometheus) (c : GinContext)
    (st : MetricsState) (path : String)
    (hurl : c.request.url = some path) (hne : path ≠ p.metricsPath)
    (hk : 0 < p.urlLabelFromContext.length)
    (hdisj : ∀ k ∈ labelKeys p.customLabels,
      k ∉ (["code", "method", "handler", "host", "url"] : List String))
    (hnd : (labelKeys p.customLabels).Nodup) :
    handlerFunc p c st = some
      { reqCnt := st.reqCnt ++ [cntBase p c ++ p.customLabels],
        reqDur := st.reqDur ++ [(durBase p c ++ p.customLabels, c.elapsed)],
        reqSz := st.reqSz ++
          [(computeApproximateRequestSize p.disableBodyReading c.request).size],
        resSz := st.resSz ++ [c.writerSize] }
  ∧ urlOf p c = (ctxGet c p.urlLabelFromContext).getD "unknown"
  ∧ lookupLabel "url" (cntBase p c ++ p.customLabels) = some (urlOf p c)
  ∧ ∀ f, urlOf { p with reqCntURLLabelMappingFn := f } c = urlOf p c := by
  refine ⟨handlerFunc_record p c st path hurl hne hdisj hnd, ?_, ?_, ?_⟩
  · unfold urlOf
    rw [if_pos hk]
    rcases ctxGet c p.urlLabelFromContext <;> simp
  · simp [lookupLabel, cntBase, List.find?]
  · intro f
    unfold urlOf
    simp only
    rw [if_pos hk, if_pos hk]

/-- Witness for C9: with the context key "u" configured but no value stored
under it, the recorded url label is the literal "unknown" even though the
mapping function returns the raw path. -/
theorem urlLabel_from_context_witness :
    handlerFunc
      ⟨"/metrics", [], "u", (fun c => c.request.url.getD ""), false⟩
      ⟨⟨some "/a", "GET", "HTTP/1.1", [], "example.com", 0, none⟩,
        200, 5, "hA", [], 1⟩
      ⟨[], [], [], []⟩ = some
      { reqCnt := [] ++ [cntBase
          ⟨"/metrics", [], "u", (fun c => c.request.url.getD ""), false⟩
          ⟨⟨some "/a", "GET", "HTTP/1.1", [], "example.com", 0, none⟩,
            200, 5, "hA", [], 1⟩ ++ []],
        reqDur := [] ++ [(durBase
          ⟨"/metrics", [], "u", (fun c => c.request.url.getD ""), false⟩
          ⟨⟨some "/a", "GET", "HTTP/1.1", [], "example.com", 0, none⟩,
            200, 5, "hA", [], 1⟩ ++ [], 1)],
        reqSz := [] ++ [(computeApproximateRequestSize false
          ⟨some "/a", "GET", "HTTP/1.1", [], "example.com", 0, none⟩).size],
        resSz := [] ++ [5] }
  ∧ urlOf ⟨"/metrics", [], "u", (fun c => c.request.url.getD ""), false⟩
      ⟨⟨some "/a", "GET", "HTTP/1.1", [], "example.com", 0, none⟩,
        200, 5, "hA", [], 1⟩
      = (ctxGet ⟨⟨some "/a", "GET", "HTTP/1.1", [], "example.com", 0, none⟩,
          200, 5, "hA", [], 1⟩ "u").getD "unknown"
  ∧ lookupLabel "url"
      (cntBase ⟨"/metrics", [], "u", (fun c => c.request.url.getD ""), false⟩
        ⟨⟨some "/a", "GET", "HTTP/1.1", [], "example.com", 0, none⟩,
          200, 5, "hA", [], 1⟩ ++ [])
      = some (urlOf
          ⟨"/metrics", [], "u", (fun c => c.request.url.getD ""), false⟩
          ⟨⟨some "/a", "GET", "HTTP/1.1", [], "example.com", 0, none⟩,
            200, 5, "hA", [], 1⟩)
  ∧ ∀ f, urlOf ⟨"/metrics", [], "u", f, false⟩
      ⟨⟨some "/a", "GET", "HTTP/1.1", [], "example.com", 0, none⟩,
        200, 5, "hA", [], 1⟩
      = urlOf ⟨"/metrics", [], "u", (fun c => c.request.url.getD ""), false⟩
          ⟨⟨some "/a", "GET", "HTTP/1.1", [], "example.com", 0, none⟩,
            200, 5, "hA", [], 1⟩ :=
  urlLabel_from_context _ _ _ "/a" rfl (by decide) (by decide)
    (by decide) (by decide)

end GinProm
